import Mathlib

/-!
Verification development for the dynamic schema-aware query/tool
orchestration layer: the query guard and read-only execution boundary
(backend/database.py), the SQL translator (backend/llm_service.py), the
session store, tool discovery and chat turn handling (backend/main.py),
and the database MCP tools (backend/mcp_server.py).

Modelling conventions: Python strings are `String`, Python dicts are
association lists with first-occurrence lookup and in-place overwrite on
assignment (matching dict key uniqueness and insertion order), fallible
I/O calls (database connections, LLM backends, MCP transports) are
`Except` values supplied as inputs, and `time.time()` is an integer
parameter.  Every function is total: the Python `try/except` recovery
blocks become the `Except.error` branches.
-/

/-! ## String primitives (embedding of the Python operations used) -/

/-- One result row, as produced by `dict(zip(columns, row))`. -/
abbrev Row := List (String × String)

/-- Helper for the embedding of Python's substring test `t in s`:
scan every suffix of `s` for `t` as a prefix. -/
def containsAux (t : List Char) : List Char → Bool
  | [] => t.isEmpty
  | c :: cs => t.isPrefixOf (c :: cs) || containsAux t cs

/-- Embedding of Python's `t in s` on strings. -/
def strContains (s t : String) : Bool := containsAux t.data s.data

/-- Embedding of Python's `s.upper()` (character-wise, as in the ASCII
keywords this code compares against). -/
def str_upper (s : String) : String := ⟨s.data.map Char.toUpper⟩

/-- Embedding of Python's `s.strip()`: drop whitespace from both ends. -/
def strip_chars (s : String) : String :=
  ⟨((s.data.dropWhile Char.isWhitespace).reverse.dropWhile Char.isWhitespace).reverse⟩

/-- Embedding of Python's `s.startswith(t)`. -/
def str_startsWith (s t : String) : Bool := t.data.isPrefixOf s.data

/-- Embedding of Python's `s.endswith(t)`. -/
def str_endsWith (s t : String) : Bool := t.data.isSuffixOf s.data

/-- Embedding of Python's slice `s[n:]`. -/
def str_drop (s : String) (n : Nat) : String := ⟨s.data.drop n⟩

/-- Embedding of Python's slice `s[:-n]`. -/
def str_dropRight (s : String) (n : Nat) : String :=
  ⟨s.data.take (s.data.length - n)⟩

theorem containsAux_iff (t : List Char) : ∀ s, containsAux t s = true ↔ t <:+: s := by
  intro s
  induction s with
  | nil =>
    simp [containsAux, List.isEmpty_iff]
  | cons c cs ih =>
    simp only [containsAux, Bool.or_eq_true, ih, List.isPrefixOf_iff_prefix]
    constructor
    · rintro (h | h)
      · exact h.isInfix
      · exact h.trans (List.infix_cons_iff.mpr (Or.inr (List.infix_refl cs)))
    · intro h
      rcases List.infix_cons_iff.mp h with h | h
      · exact Or.inl h
      · exact Or.inr h

theorem strContains_iff (s t : String) : strContains s t = true ↔ t.data <:+: s.data :=
  containsAux_iff t.data s.data

/-! ## Query Guard and read-only execution (backend/database.py,
`execute_read_query`) -/

/-- The denylist of mutating keywords from `execute_read_query`
(`forbidden_keywords` in backend/database.py line 244). -/
def forbidden_keywords : List String :=
  ["INSERT", "UPDATE", "DELETE", "DROP", "ALTER", "TRUNCATE", "REPLACE", "CREATE"]

/-- The spec's Query Guard `is_read_only`: the query passes iff no
denylisted keyword occurs in `query.upper()` — the inline check
`any(keyword in query.upper() for keyword in forbidden_keywords)` of
`execute_read_query`, as a named predicate. -/
def is_read_only (query : String) : Bool :=
  ! forbidden_keywords.any (fun kw => strContains (str_upper query) kw)

/-- The payload returned by `execute_read_query`: either `{"data": ...}`
or `{"error": ...}`. -/
inductive ExecPayload where
  | dataP : List Row → ExecPayload
  | errorP : String → ExecPayload
deriving DecidableEq

/-- `execute_read_query` (backend/database.py lines 236-262).  The actual
database execution (the `conn.execute` inside the `try`) is the input
`exec`; its `Except.error` case is the Python `except Exception` branch.
The function is total: no outcome escapes as an exception. -/
def execute_read_query (exec : String → Except String (List Row)) (query : String) :
    ExecPayload :=
  if forbidden_keywords.any (fun kw => strContains (str_upper query) kw) then
    ExecPayload.errorP "Only SELECT queries are allowed."
  else
    match exec query with
    | Except.ok rows => ExecPayload.dataP rows
    | Except.error e => ExecPayload.errorP e

/-- C1: every query containing a denylisted mutating keyword as a
substring, in any case combination (a character run `w` whose uppercasing
is the keyword), is refused by `execute_read_query` with the structured
payload `{"error": "Only SELECT queries are allowed."}`; the result is
the same for every database executor `exec`, so the query is never
executed, and the function is total, so nothing is thrown past the
boundary. -/
theorem execute_read_query_rejects_denylisted (query : String)
    (exec : String → Except String (List Row))
    (h : ∃ kw ∈ forbidden_keywords, ∃ w : List Char,
        w.map Char.toUpper = kw.data ∧ w <:+: query.data) :
    execute_read_query exec query = ExecPayload.errorP "Only SELECT queries are allowed." := by
  obtain ⟨kw, hkw, w, hmap, hinf⟩ := h
  have h1 : kw.data <:+: (str_upper query).data := by
    obtain ⟨u, v, huv⟩ := hinf
    refine ⟨u.map Char.toUpper, v.map Char.toUpper, ?_⟩
    have : (str_upper query).data = query.data.map Char.toUpper := rfl
    rw [this, ← huv]
    simp [hmap]
  have h2 : forbidden_keywords.any (fun kw => strContains (str_upper query) kw) = true := by
    rw [List.any_eq_true]
    exact ⟨kw, hkw, (strContains_iff _ _).mpr h1⟩
  unfold execute_read_query
  rw [if_pos h2]

/-- Witness for C1: the all-lowercase query `"insert into t"` contains a
case-variant of the denylisted keyword `INSERT` and is refused without
being executed. -/
theorem execute_read_query_rejects_denylisted_witness :
    execute_read_query (fun _ => Except.ok ([] : List Row)) "insert into t"
      = ExecPayload.errorP "Only SELECT queries are allowed." :=
  execute_read_query_rejects_denylisted "insert into t" (fun _ => Except.ok [])
    ⟨"INSERT", by decide, "insert".data, by decide, by decide⟩

/-! ## Translator (backend/llm_service.py, `generate_sql`) -/

/-- The two generative backends; exactly one is active per process. -/
inductive Provider where
  | gemini
  | openai
deriving DecidableEq

/-- The markdown code-fence cleanup of `generate_sql`: the three
sequential `startswith`/`endswith` checks followed by the final
`.strip()`. -/
def strip_code_fences (sql : String) : String :=
  let sql := if str_startsWith sql "```sql" then str_drop sql 6 else sql
  let sql := if str_startsWith sql "```" then str_drop sql 3 else sql
  let sql := if str_endsWith sql "```" then str_dropRight sql 3 else sql
  strip_chars sql

/-- `generate_sql` (backend/llm_service.py lines 61-115).  `provider` and
`system_instruction` are the module globals; `backend` is the generative
call (`model.generate_content` / `client.chat.completions.create`),
whose `Except.error` case is the Python `except Exception` branch.  Both
provider branches perform the same strip-and-clean post-processing, so
they share the `Except.ok` arm. -/
def generate_sql (provider : Option Provider) (system_instruction : Option String)
    (backend : Except String String) (_question : String) : String :=
  match provider, system_instruction with
  | none, _ => "SELECT 1 LIMIT 0;"
  | _, none => "SELECT 1 LIMIT 0;"
  | some _, some _ =>
    match backend with
    | Except.ok text => strip_code_fences (strip_chars text)
    | Except.error _ => "SELECT 1 LIMIT 0;"

/-- C2 counterexample: on a successful backend call `generate_sql`
returns the model's output with code fences stripped but without any
guard validation, so when the untrusted backend emits
`"DROP TABLE employees;"` the translator returns a query that fails
`is_read_only` — the round-trip property `is_read_only(translate(q, s))`
does not hold for all questions and schema prompts. -/
theorem generate_sql_success_path_unguarded :
    is_read_only (generate_sql (some Provider.gemini) (some "schema prompt")
      (Except.ok "DROP TABLE employees;") "remove the employees table") = false := by
  decide

/-- C2 amended: whenever the backend call fails, or the LLM is not
initialized (`provider is None or SYSTEM_INSTRUCTION is None`),
`generate_sql` returns the fixed fallback query `"SELECT 1 LIMIT 0;"`,
and that fallback satisfies the Query Guard `is_read_only`; on a
successful backend call the stripped backend output is returned without
guard validation. -/
theorem generate_sql_fallback_read_only (p : Provider) (si : String)
    (q : String) (e : String) :
    generate_sql (some p) (some si) (Except.error e) q = "SELECT 1 LIMIT 0;"
  ∧ (∀ b, generate_sql none (some si) b q = "SELECT 1 LIMIT 0;")
  ∧ (∀ b, generate_sql (some p) none b q = "SELECT 1 LIMIT 0;")
  ∧ is_read_only "SELECT 1 LIMIT 0;" = true :=
  ⟨rfl, fun _ => rfl, fun _ => rfl, by decide⟩

/-! ## MCP query tool (backend/mcp_server.py, `query_database`) -/

/-- Projection `result.get("data", [])` on an `execute_read_query`
payload. -/
def ExecPayload.getData : ExecPayload → List Row
  | ExecPayload.dataP rows => rows
  | ExecPayload.errorP _ => []

/-- Projection `result.get("error")` on an `execute_read_query`
payload. -/
def ExecPayload.getError : ExecPayload → Option String
  | ExecPayload.dataP _ => none
  | ExecPayload.errorP e => some e

/-- The dict returned by the `query_database` MCP tool. -/
structure QueryToolResult where
  success : Bool
  sql : Option String
  data : List Row
  error : Option String
  row_count : Nat
deriving DecidableEq

/-- The `query_database` MCP tool (backend/mcp_server.py lines 28-69).
`gen_outcome` is the `generate_sql(question)` call viewed through the
surrounding `try`: `Except.error` is the `except Exception` branch (which
in the embedded semantics is dead code, since `generate_sql` and
`execute_read_query` are total), `Except.ok sql` is the call returning
`sql`.  `dbexec` is the underlying database executor passed on to
`execute_read_query`. -/
def query_database (gen_outcome : Except String String)
    (dbexec : String → Except String (List Row)) : QueryToolResult :=
  match gen_outcome with
  | Except.error e => ⟨false, none, [], some e, 0⟩
  | Except.ok generated_sql =>
      let result := execute_read_query dbexec generated_sql
      ⟨true, some generated_sql, result.getData, result.getError, result.getData.length⟩

/-- C10: whenever `generate_sql` returns without raising (the
`Except.ok` case) the tool reports `success: True` — including when
`execute_read_query` returned an error payload.  On a guard rejection
(`is_read_only` false) and on a runtime database error the result
simultaneously carries `success: True`, an empty data list,
`row_count 0`, and a non-null `error` field. -/
theorem query_database_success_shape (sql : String)
    (dbexec : String → Except String (List Row)) :
    (query_database (Except.ok sql) dbexec).success = true
  ∧ (is_read_only sql = false →
      query_database (Except.ok sql) dbexec
        = ⟨true, some sql, [], some "Only SELECT queries are allowed.", 0⟩)
  ∧ (∀ e, is_read_only sql = true → dbexec sql = Except.error e →
      query_database (Except.ok sql) dbexec = ⟨true, some sql, [], some e, 0⟩) := by
  refine ⟨rfl, ?_, ?_⟩
  · intro h
    have hany : forbidden_keywords.any (fun kw => strContains (str_upper sql) kw) = true := by
      simpa [is_read_only] using h
    simp [query_database, execute_read_query, hany, ExecPayload.getData, ExecPayload.getError]
  · intro e h he
    have hany : forbidden_keywords.any (fun kw => strContains (str_upper sql) kw) = false := by
      simpa [is_read_only] using h
    simp [query_database, execute_read_query, hany, he, ExecPayload.getData, ExecPayload.getError]

/-- Witness for C10: a guard-rejected query and a database-error query
both yield `success: True` with empty data, `row_count 0` and a non-null
error. -/
theorem query_database_success_shape_witness :
    query_database (Except.ok "DROP TABLE t") (fun _ => Except.ok [])
      = ⟨true, some "DROP TABLE t", [], some "Only SELECT queries are allowed.", 0⟩
  ∧ query_database (Except.ok "SELECT 2") (fun _ => Except.error "no such table")
      = ⟨true, some "SELECT 2", [], some "no such table", 0⟩ :=
  ⟨(query_database_success_shape "DROP TABLE t" (fun _ => Except.ok [])).2.1 (by decide),
   (query_database_success_shape "SELECT 2" (fun _ => Except.error "no such table")).2.2
     "no such table" (by decide) rfl⟩

/-! ## Python dict model

Association lists with first-occurrence lookup, in-place overwrite on
assignment, and `del` removing the (unique) matching key — the behavior
of a Python dict whose keys are unique by construction. -/

/-- Dict lookup `m[key]` / `m.get(key)`. -/
def dictGet {α : Type} : List (String × α) → String → Option α
  | [], _ => none
  | (k, v) :: rest, key => if k = key then some v else dictGet rest key

/-- Dict assignment `m[key] = v`: overwrite in place, or append. -/
def dictInsert {α : Type} : List (String × α) → String → α → List (String × α)
  | [], key, v => [(key, v)]
  | (k, w) :: rest, key, v =>
    if k = key then (k, v) :: rest else (k, w) :: dictInsert rest key v

/-- Dict deletion `del m[key]`: remove the first matching entry. -/
def dictErase {α : Type} : List (String × α) → String → List (String × α)
  | [], _ => []
  | (k, v) :: rest, key => if k = key then rest else (k, v) :: dictErase rest key

theorem dictGet_dictInsert_same {α : Type} (key : String) (v : α) :
    ∀ m, dictGet (dictInsert m key v) key = some v := by
  intro m
  induction m with
  | nil => simp [dictInsert, dictGet]
  | cons p rest ih =>
    obtain ⟨k, w⟩ := p
    by_cases hk : k = key
    · simp [dictInsert, dictGet, hk]
    · simp [dictInsert, dictGet, hk, ih]

theorem dictGet_dictInsert_other {α : Type} (key k' : String) (v : α)
    (hne : key ≠ k') : ∀ m, dictGet (dictInsert m key v) k' = dictGet m k' := by
  intro m
  induction m with
  | nil => simp [dictInsert, dictGet, hne]
  | cons p rest ih =>
    obtain ⟨k, w⟩ := p
    by_cases hk : k = key
    · subst hk
      simp [dictInsert, dictGet, hne]
    · simp [dictInsert, dictGet, hk, ih]

theorem mem_dictInsert {α : Type} (key : String) (v : α) (p : String × α) :
    ∀ m, p ∈ dictInsert m key v → p ∈ m ∨ p = (key, v) := by
  intro m
  induction m with
  | nil =>
    intro h
    simp only [dictInsert, List.mem_singleton] at h
    exact Or.inr h
  | cons q rest ih =>
    obtain ⟨k, w⟩ := q
    intro h
    by_cases hk : k = key
    · subst hk
      simp only [dictInsert, if_pos] at h
      rcases List.mem_cons.mp h with h | h
      · exact Or.inr h
      · exact Or.inl (List.mem_cons_of_mem _ h)
    · simp only [dictInsert, if_neg hk] at h
      rcases List.mem_cons.mp h with h | h
      · exact Or.inl (by rw [h]; exact List.mem_cons_self _ _)
      · rcases ih h with h' | h'
        · exact Or.inl (List.mem_cons_of_mem _ h')
        · exact Or.inr h'

theorem dictGet_eq_none_iff {α : Type} (key : String) :
    ∀ m : List (String × α), dictGet m key = none ↔ key ∉ m.map Prod.fst := by
  intro m
  induction m with
  | nil => simp [dictGet]
  | cons p rest ih =>
    obtain ⟨k, w⟩ := p
    by_cases hk : k = key
    · simp [dictGet, hk]
    · simp [dictGet, hk, ih, Ne.symm hk]

theorem dictGet_dictErase_other {α : Type} (key k' : String) (hne : k' ≠ key) :
    ∀ m : List (String × α), dictGet (dictErase m key) k' = dictGet m k' := by
  intro m
  induction m with
  | nil => simp [dictErase]
  | cons p rest ih =>
    obtain ⟨k, w⟩ := p
    by_cases hk : k = key
    · subst hk
      simp [dictErase, dictGet, Ne.symm hne]
    · simp [dictErase, dictGet, hk, ih]

theorem dictGet_dictErase_same {α : Type} (key : String) :
    ∀ m : List (String × α), (m.map Prod.fst).Nodup →
      dictGet (dictErase m key) key = none := by
  intro m
  induction m with
  | nil => simp [dictErase, dictGet]
  | cons p rest ih =>
    obtain ⟨k, w⟩ := p
    intro hnd
    simp only [List.map_cons, List.nodup_cons] at hnd
    by_cases hk : k = key
    · subst hk
      simp only [dictErase, if_pos rfl]
      exact (dictGet_eq_none_iff k rest).mpr hnd.1
    · simp [dictErase, dictGet, hk, ih hnd.2]

/-! ## Conversation Session Store (backend/main.py lines 54-89) -/

/-- One message of an OpenAI-style history: `{"role": ..., "content": ...}`. -/
structure ChatMessage where
  role : String
  content : String
deriving DecidableEq

/-- The conversational state of a session: the provider-native chat
handle for Gemini (opaque to this layer), or the explicit message list
for OpenAI. -/
inductive SessionState where
  | geminiChat : SessionState
  | openaiMessages : List ChatMessage → SessionState
deriving DecidableEq

/-- One entry of `chat_sessions`: conversational state plus
`last_accessed` timestamp. -/
structure SessionData where
  state : SessionState
  last_accessed : Int
deriving DecidableEq

/-- `SESSION_TIMEOUT = 3600` (backend/main.py line 55). -/
def SESSION_TIMEOUT : Int := 3600

/-- `cleanup_old_sessions` (backend/main.py lines 57-63): delete every
session whose idle time strictly exceeds `SESSION_TIMEOUT`; `now` is
`time.time()`. -/
def cleanup_old_sessions (now : Int) (chat_sessions : List (String × SessionData)) :
    List (String × SessionData) :=
  chat_sessions.filter (fun p => ! decide (now - p.2.last_accessed > SESSION_TIMEOUT))

/-- The fresh session built by `get_or_create_chat_session` for an
unknown id: a provider-native chat for Gemini, a history holding only the
system message for OpenAI; both stamped with the current time. -/
def new_session (provider : Provider) (system_instruction : String) (now : Int) :
    SessionData :=
  match provider with
  | Provider.gemini => ⟨SessionState.geminiChat, now⟩
  | Provider.openai => ⟨SessionState.openaiMessages [⟨"system", system_instruction⟩], now⟩

/-- `get_or_create_chat_session` (backend/main.py lines 65-89), under the
assumption that the chat model is initialized (otherwise the function
raises a 503 before touching the store; `provider` being present encodes
that).  Sweeps first, then creates a fresh session or refreshes
`last_accessed`, and returns `chat_sessions[session_id]`. -/
def get_or_create_chat_session (provider : Provider) (system_instruction : String)
    (now : Int) (chat_sessions : List (String × SessionData)) (session_id : String) :
    List (String × SessionData) × Option SessionData :=
  let sessions := cleanup_old_sessions now chat_sessions
  let sessions :=
    match dictGet sessions session_id with
    | none => dictInsert sessions session_id (new_session provider system_instruction now)
    | some d => dictInsert sessions session_id ⟨d.state, now⟩
  (sessions, dictGet sessions session_id)

/-- C5: on every `get_or_create_chat_session` call the sweep runs first
and keeps exactly the sessions whose idle time does not exceed
`SESSION_TIMEOUT`; after the call the returned session is a `some`, is
the entry stored under `session_id`, and carries
`last_accessed = now` — for a pre-existing session and for a freshly
created one alike; and no session left in the store is idle beyond the
timeout. -/
theorem get_or_create_session_sweep_and_refresh (provider : Provider)
    (system_instruction : String) (now : Int)
    (chat_sessions : List (String × SessionData)) (session_id : String) :
    (∀ p, p ∈ cleanup_old_sessions now chat_sessions ↔
        (p ∈ chat_sessions ∧ now - p.2.last_accessed ≤ SESSION_TIMEOUT))
  ∧ (∃ d, (get_or_create_chat_session provider system_instruction now chat_sessions
        session_id).2 = some d
      ∧ dictGet (get_or_create_chat_session provider system_instruction now chat_sessions
          session_id).1 session_id = some d
      ∧ d.last_accessed = now)
  ∧ (∀ p, p ∈ (get_or_create_chat_session provider system_instruction now chat_sessions
        session_id).1 →
      now - p.2.last_accessed ≤ SESSION_TIMEOUT) := by
  have hclean : ∀ p, p ∈ cleanup_old_sessions now chat_sessions ↔
      (p ∈ chat_sessions ∧ now - p.2.last_accessed ≤ SESSION_TIMEOUT) := by
    intro p
    simp [cleanup_old_sessions, List.mem_filter, not_lt]
  refine ⟨hclean, ?_, ?_⟩
  · cases hd : dictGet (cleanup_old_sessions now chat_sessions) session_id with
    | none =>
      refine ⟨new_session provider system_instruction now, ?_, ?_, ?_⟩
      · simp [get_or_create_chat_session, hd, dictGet_dictInsert_same]
      · simp [get_or_create_chat_session, hd, dictGet_dictInsert_same]
      · cases provider <;> rfl
    | some d =>
      refine ⟨⟨d.state, now⟩, ?_, ?_, rfl⟩
      · simp [get_or_create_chat_session, hd, dictGet_dictInsert_same]
      · simp [get_or_create_chat_session, hd, dictGet_dictInsert_same]
  · intro p hp
    have hmem : p ∈ cleanup_old_sessions now chat_sessions ∨ p.2.last_accessed = now := by
      cases hd : dictGet (cleanup_old_sessions now chat_sessions) session_id with
      | none =>
        simp only [get_or_create_chat_session, hd] at hp
        rcases mem_dictInsert _ _ _ _ hp with h | h
        · exact Or.inl h
        · subst h
          cases provider <;> exact Or.inr rfl
      | some d =>
        simp only [get_or_create_chat_session, hd] at hp
        rcases mem_dictInsert _ _ _ _ hp with h | h
        · exact Or.inl h
        · subst h
          exact Or.inr rfl
    rcases hmem with h | h
    · exact ((hclean p).mp h).2
    · rw [h]
      simp [SESSION_TIMEOUT]

/-- A concrete session store used by witnesses: one session idle for
9000 seconds (expired) and one idle for 1000 seconds (live) at time
10000. -/
def demo_sessions : List (String × SessionData) :=
  [("stale", ⟨SessionState.geminiChat, 1000⟩), ("live", ⟨SessionState.geminiChat, 9000⟩)]

/-- Witness for C5: at time 10000 the live session survives the sweep,
the refreshed session is returned and stored with
`last_accessed = 10000`, and an entry of the resulting store is within
the timeout. -/
theorem get_or_create_session_sweep_and_refresh_witness :
    ("live", (⟨SessionState.geminiChat, 9000⟩ : SessionData))
      ∈ cleanup_old_sessions 10000 demo_sessions
  ∧ (∃ d, (get_or_create_chat_session Provider.gemini "sys" 10000 demo_sessions
        "live").2 = some d
      ∧ dictGet (get_or_create_chat_session Provider.gemini "sys" 10000 demo_sessions
          "live").1 "live" = some d
      ∧ d.last_accessed = 10000)
  ∧ 10000 - (((⟨SessionState.geminiChat, 10000⟩ : SessionData)).last_accessed) ≤ SESSION_TIMEOUT :=
  ⟨((get_or_create_session_sweep_and_refresh Provider.gemini "sys" 10000 demo_sessions
      "live").1 _).mpr ⟨by decide, by decide⟩,
   (get_or_create_session_sweep_and_refresh Provider.gemini "sys" 10000 demo_sessions
      "live").2.1,
   (get_or_create_session_sweep_and_refresh Provider.gemini "sys" 10000 demo_sessions
      "live").2.2 ("live", ⟨SessionState.geminiChat, 10000⟩) (by decide)⟩

/-- The payload of the `DELETE /mcp-chat/session/{session_id}` handler. -/
structure ClearResponse where
  message : String
  session_id : String
deriving DecidableEq

/-- `clear_chat_session` (backend/main.py lines 369-375). -/
def clear_chat_session (chat_sessions : List (String × SessionData))
    (session_id : String) : List (String × SessionData) × ClearResponse :=
  if (dictGet chat_sessions session_id).isSome then
    (dictErase chat_sessions session_id, ⟨"Session cleared", session_id⟩)
  else
    (chat_sessions, ⟨"Session not found", session_id⟩)

/-- C9: deleting an absent session id is a no-op returning the
success-shaped payload `{message: "Session not found"}` with the id and
an unchanged store, never an error; deleting a present session returns
`{message: "Session cleared"}`, removes exactly that session and leaves
every other id's entry untouched.  (The store's keys are unique, the
dict invariant.) -/
theorem clear_chat_session_spec (chat_sessions : List (String × SessionData))
    (session_id : String) (hnd : (chat_sessions.map Prod.fst).Nodup) :
    (dictGet chat_sessions session_id = none →
      clear_chat_session chat_sessions session_id
        = (chat_sessions, ⟨"Session not found", session_id⟩))
  ∧ (∀ d, dictGet chat_sessions session_id = some d →
      (clear_chat_session chat_sessions session_id).2 = ⟨"Session cleared", session_id⟩
    ∧ dictGet (clear_chat_session chat_sessions session_id).1 session_id = none
    ∧ ∀ k, k ≠ session_id →
        dictGet (clear_chat_session chat_sessions session_id).1 k
          = dictGet chat_sessions k) := by
  constructor
  · intro h
    simp [clear_chat_session, h]
  · intro d hd
    refine ⟨?_, ?_, ?_⟩
    · simp [clear_chat_session, hd]
    · simp only [clear_chat_session, hd, Option.isSome_some, if_pos]
      exact dictGet_dictErase_same session_id chat_sessions hnd
    · intro k hk
      simp only [clear_chat_session, hd, Option.isSome_some, if_pos]
      exact dictGet_dictErase_other session_id k hk chat_sessions

/-- Witness for C9: deleting the unknown id `"missing"` from the demo
store is a success-shaped no-op; deleting `"stale"` removes exactly that
session. -/
theorem clear_chat_session_spec_witness :
    clear_chat_session demo_sessions "missing"
      = (demo_sessions, ⟨"Session not found", "missing"⟩)
  ∧ (clear_chat_session demo_sessions "stale").2 = ⟨"Session cleared", "stale"⟩
  ∧ dictGet (clear_chat_session demo_sessions "stale").1 "stale" = none
  ∧ dictGet (clear_chat_session demo_sessions "stale").1 "live"
      = dictGet demo_sessions "live" :=
  ⟨(clear_chat_session_spec demo_sessions "missing" (by decide)).1 (by decide),
   ((clear_chat_session_spec demo_sessions "stale" (by decide)).2
      ⟨SessionState.geminiChat, 1000⟩ (by decide)).1,
   ((clear_chat_session_spec demo_sessions "stale" (by decide)).2
      ⟨SessionState.geminiChat, 1000⟩ (by decide)).2.1,
   ((clear_chat_session_spec demo_sessions "stale" (by decide)).2
      ⟨SessionState.geminiChat, 1000⟩ (by decide)).2.2 "live" (by decide)⟩

/-! ## Chat Orchestrator turn (backend/main.py, `mcp_chat`,
OpenAI-provider path, lines 325-349 and outer handler lines 359-364) -/

/-- The user-visible part of a chat turn's terminal payload. -/
structure ChatTurnResponse where
  type_ : String
  response : String
deriving DecidableEq

/-- The OpenAI-provider path of one `mcp_chat` turn.  The session's
message history is the mutable list aliased by
`messages = session_data["messages"]`; `backend` is the
`chat.completions.create` call, whose `Except.error` case is the inner
`except Exception` branch returning the `type: "error"` payload.  Note
the user message is appended to the stored history before the backend
call. -/
def mcp_chat_openai (history : List ChatMessage) (user_message : String)
    (backend : Except String String) : List ChatMessage × ChatTurnResponse :=
  let messages := history ++ [⟨"user", user_message⟩]
  match backend with
  | Except.ok assistant_message =>
      (messages ++ [⟨"assistant", assistant_message⟩],
       ⟨"direct", assistant_message⟩)
  | Except.error e =>
      (messages, ⟨"error", "Error with OpenAI: " ++ e⟩)

/-- C3 counterexample: a turn on an empty-history session whose backend
call fails ends in the `type: "error"` terminal state, yet the session's
history is no longer empty — the user message was committed before the
terminal state was reached, so the turn does not leave the history
exactly as it was. -/
theorem mcp_chat_error_turn_mutates_history :
    (mcp_chat_openai [] "hello" (Except.error "boom")).2.type_ = "error"
  ∧ (mcp_chat_openai [] "hello" (Except.error "boom")).1 ≠ [] := by
  decide

/-- C3 amended: a failing backend call during an OpenAI-provider turn is
converted to a terminal `type: "error"` response carrying the failure
description (never thrown past the boundary), but the turn leaves the
session history equal to the pre-turn history with the user message
appended — the user message is committed before the backend call, the
assistant reply only on success. -/
theorem mcp_chat_openai_turn_spec (history : List ChatMessage) (user_message : String) :
    (∀ e, mcp_chat_openai history user_message (Except.error e)
        = (history ++ [⟨"user", user_message⟩],
           ⟨"error", "Error with OpenAI: " ++ e⟩))
  ∧ (∀ a, mcp_chat_openai history user_message (Except.ok a)
        = (history ++ [⟨"user", user_message⟩, ⟨"assistant", a⟩],
           ⟨"direct", a⟩)) :=
  ⟨fun _ => rfl, fun a => by simp [mcp_chat_openai]⟩

/-! ## Schema Inspector (backend/database.py, `detect_schema`,
`get_schema`, `refresh_schema`) -/

/-- A column of the produced schema description. -/
structure ColumnInfo where
  name : String
  type_ : String
  nullable : Bool
  primary_key : Bool
deriving DecidableEq

/-- A table of the produced schema description. -/
structure TableInfo where
  table_name : String
  columns : List ColumnInfo
deriving DecidableEq

/-- One relationship edge of the produced schema description. -/
structure Relationship where
  from_table : String
  from_column : String
  to_table : String
  to_column : String
deriving DecidableEq

/-- The structured result of `detect_schema`:
`{"tables": [...], "relationships": [...]}`. -/
structure SchemaInfo where
  tables : List TableInfo
  relationships : List Relationship
deriving DecidableEq

/-- One entry of `inspector.get_columns(table_name)`. -/
structure InspectedColumn where
  name : String
  type_ : String
  nullable : Bool
deriving DecidableEq

/-- One entry of `inspector.get_foreign_keys(table_name)`. -/
structure InspectedFK where
  constrained_columns : List String
  referred_table : String
  referred_columns : List String
deriving DecidableEq

/-- What the SQLAlchemy inspector reports for one table: its name, its
columns, the primary-key constraint's constrained columns, and its
foreign keys. -/
structure InspectedTable where
  name : String
  columns : List InspectedColumn
  pk_constrained_columns : List String
  foreign_keys : List InspectedFK
deriving DecidableEq

/-- The per-table column formatting of `detect_schema`:
`primary_key` is `col["name"] in pk_constraint.get("constrained_columns", [])`. -/
def build_table (t : InspectedTable) : TableInfo :=
  ⟨t.name, t.columns.map (fun col =>
    ⟨col.name, col.type_, col.nullable, t.pk_constrained_columns.contains col.name⟩)⟩

/-- The relationship edges `detect_schema` extracts from one foreign
key: one edge per constrained column (`for i, col in
enumerate(fk["constrained_columns"])`), paired with
`fk["referred_columns"][i] if i < len(fk["referred_columns"]) else "id"`. -/
def fk_edges (table_name : String) (fk : InspectedFK) : List Relationship :=
  fk.constrained_columns.enum.map (fun p =>
    ⟨table_name, p.2, fk.referred_table, fk.referred_columns.getD p.1 "id"⟩)

/-- `detect_schema` (backend/database.py lines 131-188) as a transformer
of the process-wide `_schema_cache`: `db` is what the inspector reports,
the result is the new cache paired with the returned description.  On an
empty database the function early-returns the empty description without
touching the cache. -/
def detect_schema (db : List InspectedTable) (schema_cache : Option SchemaInfo) :
    Option SchemaInfo × SchemaInfo :=
  if db.isEmpty then
    (schema_cache, ⟨[], []⟩)
  else
    let schema_info : SchemaInfo :=
      ⟨db.map build_table, db.bind (fun t => t.foreign_keys.bind (fk_edges t.name))⟩
    (some schema_info, schema_info)

/-- `get_schema` (backend/database.py lines 265-284): detect only when
the cache is `None`, then build the table list from the (post-detection)
cache.  The third component records whether a detection pass ran. -/
def get_schema (db : List InspectedTable) (schema_cache : Option SchemaInfo) :
    Option SchemaInfo × List TableInfo × Bool :=
  match schema_cache with
  | some info => (some info, info.tables, false)
  | none =>
    match (detect_schema db none).1 with
    | some info => (some info, info.tables, true)
    | none => (none, [], true)

/-- `refresh_schema` (backend/database.py lines 314-321): clear the
cache, then re-detect. -/
def refresh_schema (db : List InspectedTable) (_schema_cache : Option SchemaInfo) :
    Option SchemaInfo × SchemaInfo :=
  detect_schema db none

/-- C6 counterexample: on a database with zero tables `detect_schema`
returns the empty description but leaves `_schema_cache` untouched
(`None` here), so the cache does not equal the returned description; and
a subsequent `get_schema` is not served from the cache — it re-runs
detection on every call (`true` in the third component), even right
after a previous `get_schema`. -/
theorem detect_schema_empty_db_cache_not_updated :
    (detect_schema [] none).1 ≠ some ((detect_schema [] none).2)
  ∧ (detect_schema [] none).2 = ⟨[], []⟩
  ∧ (get_schema [] none).2.2 = true
  ∧ (get_schema [] (get_schema [] none).1).2.2 = true := by
  decide

/-- C6 amended: on a database with zero tables `detect_schema` returns
the empty description without failing but leaves the cache unchanged;
on a database with at least one table the cache afterwards equals the
returned description, and any `get_schema` call finding a populated
cache is served from it without re-detection; `refresh_schema`
invalidates the cache and re-detects. -/
theorem detect_schema_cache_spec (db : List InspectedTable)
    (schema_cache : Option SchemaInfo) :
    (db = [] → detect_schema db schema_cache = (schema_cache, ⟨[], []⟩))
  ∧ (db ≠ [] →
      (detect_schema db schema_cache).1 = some ((detect_schema db schema_cache).2))
  ∧ (∀ info, get_schema db (some info) = (some info, info.tables, false))
  ∧ refresh_schema db schema_cache = detect_schema db none := by
  refine ⟨?_, ?_, fun info => rfl, rfl⟩
  · intro h
    subst h
    rfl
  · intro h
    have he : db.isEmpty = false := by
      cases db with
      | nil => exact absurd rfl h
      | cons t ts => rfl
    simp [detect_schema, he]

/-- A concrete foreign key used by witnesses. -/
def demo_fk : InspectedFK := ⟨["department_id"], "departments", ["id"]⟩

/-- A concrete two-table inspected database used by witnesses. -/
def demo_db : List InspectedTable :=
  [⟨"departments", [⟨"id", "INTEGER", false⟩, ⟨"name", "VARCHAR", true⟩], ["id"], []⟩,
   ⟨"employees", [⟨"id", "INTEGER", false⟩, ⟨"department_id", "INTEGER", true⟩], ["id"],
    [demo_fk]⟩]

/-- Witness for C6 (amended): the zero-table early return, the
populated-cache equality on the demo database, and a cache hit without
re-detection. -/
theorem detect_schema_cache_spec_witness :
    detect_schema ([] : List InspectedTable) none = (none, ⟨[], []⟩)
  ∧ (detect_schema demo_db none).1 = some ((detect_schema demo_db none).2)
  ∧ get_schema demo_db (some ⟨[], []⟩) = (some ⟨[], []⟩, [], false) :=
  ⟨(detect_schema_cache_spec [] none).1 rfl,
   (detect_schema_cache_spec demo_db none).2.1 (by decide),
   (detect_schema_cache_spec demo_db (some ⟨[], []⟩)).2.2.1 ⟨[], []⟩⟩

/-- C7: the relationships of the produced description are exactly the
per-table, per-foreign-key edges, and for any foreign key whose referred
column list matches its constrained column list in length (every real
foreign key), the edges are one per constrained column — `k` edges for a
composite key constraining `k` columns, the `i`-th edge pairing the
`i`-th constrained column with the `i`-th referred column. -/
theorem detect_schema_fk_fanout (db : List InspectedTable)
    (schema_cache : Option SchemaInfo) :
    ((detect_schema db schema_cache).2.relationships
        = db.bind (fun t => t.foreign_keys.bind (fk_edges t.name)))
  ∧ (∀ (table_name : String) (fk : InspectedFK),
      fk.referred_columns.length = fk.constrained_columns.length →
      fk_edges table_name fk
          = (fk.constrained_columns.zip fk.referred_columns).map
              (fun p => ⟨table_name, p.1, fk.referred_table, p.2⟩)
        ∧ (fk_edges table_name fk).length = fk.constrained_columns.length) := by
  constructor
  · cases db with
    | nil => rfl
    | cons t ts => rfl
  · intro table_name fk h
    constructor
    · apply List.ext_getElem
      · simp [fk_edges, h]
      · intro i h1 h2
        simp only [fk_edges, List.getElem_map, List.getElem_enum, List.getElem_zip]
        have hi : i < fk.referred_columns.length := by
          simp only [fk_edges, List.length_map, List.enum_length] at h1
          omega
        simp [List.getD_eq_getElem?_getD, List.getElem?_eq_getElem hi]
    · simp [fk_edges]

/-- Witness for C7: a composite foreign key constraining two columns
contributes exactly two edges, pairing columns positionally. -/
theorem detect_schema_fk_fanout_witness :
    fk_edges "orders" ⟨["customer_id", "region_id"], "customers", ["id", "region"]⟩
      = [⟨"orders", "customer_id", "customers", "id"⟩,
         ⟨"orders", "region_id", "customers", "region"⟩]
  ∧ (fk_edges "orders"
      ⟨["customer_id", "region_id"], "customers", ["id", "region"]⟩).length = 2 :=
  (detect_schema_fk_fanout [] none).2 "orders"
    ⟨["customer_id", "region_id"], "customers", ["id", "region"]⟩ rfl

/-! ## Schema Formatter (backend/database.py, `format_schema_for_llm`) -/

/-- Embedding of Python's `sep.join(lines)`. -/
def join_lines (sep : String) : List String → String
  | [] => ""
  | [x] => x
  | x :: y :: xs => x ++ sep ++ join_lines sep (y :: xs)

/-- The per-column line of a CREATE TABLE block: name, type, and the
`PRIMARY KEY` / `NOT NULL` qualifiers. -/
def column_line (col : ColumnInfo) : String :=
  let line := "  " ++ col.name ++ " " ++ col.type_
  let line := if col.primary_key then line ++ " PRIMARY KEY" else line
  if !col.nullable then line ++ " NOT NULL" else line

/-- The per-relationship line
`- from_table.from_column → to_table.to_column`. -/
def rel_line (rel : Relationship) : String :=
  "- " ++ rel.from_table ++ "." ++ rel.from_column ++ " → "
    ++ rel.to_table ++ "." ++ rel.to_column

/-- `format_schema_for_llm` (backend/database.py lines 191-233);
`database_type` is the module global `DATABASE_TYPE`.  The Python code
accumulates an `output` list of lines (some containing embedded newlines
from joining the column lines) and returns `"\n".join(output)`. -/
def format_schema_for_llm (database_type : String) (schema_info : SchemaInfo) : String :=
  if schema_info.tables.isEmpty then
    "No database schema available."
  else
    let header : List String :=
      ["The database is " ++ str_upper database_type ++ ".",
       "The database contains " ++ toString schema_info.tables.length ++ " table(s): "
         ++ join_lines ", " (schema_info.tables.map (fun t => "`" ++ t.table_name ++ "`"))
         ++ ".",
       "", "SCHEMAS:", ""]
    let table_blocks : List String :=
      schema_info.tables.bind (fun table =>
        ["CREATE TABLE " ++ table.table_name ++ " (",
         join_lines ",\n" (table.columns.map column_line),
         ");", ""])
    let rel_section : List String :=
      if schema_info.relationships.isEmpty then []
      else "RELATIONSHIPS:" :: (schema_info.relationships.map rel_line ++ [""])
    join_lines "\n" (header ++ table_blocks ++ rel_section)

theorem infix_join_lines (sep x : String) :
    ∀ l, x ∈ l → x.data <:+: (join_lines sep l).data := by
  intro l
  induction l with
  | nil => intro h; exact absurd h (List.not_mem_nil x)
  | cons y ys ih =>
    intro hx
    cases ys with
    | nil =>
      rcases List.mem_singleton.mp hx with rfl
      exact List.infix_refl _
    | cons z zs =>
      rcases List.mem_cons.mp hx with rfl | hx'
      · refine ⟨[], (sep ++ join_lines sep (z :: zs)).data, ?_⟩
        simp [join_lines, String.data_append]
      · obtain ⟨u, v, huv⟩ := ih hx'
        refine ⟨(y ++ sep).data ++ u, v, ?_⟩
        simp only [join_lines, String.data_append, List.append_assoc, huv]

/-- C8 counterexample: on the zero-table schema the formatter's sentinel
is the fixed string `"No database schema available."`, not the string
`"no schema available"` the claim names. -/
theorem format_schema_sentinel_mismatch :
    format_schema_for_llm "sqlite" ⟨[], []⟩ ≠ "no schema available"
  ∧ format_schema_for_llm "sqlite" ⟨[], []⟩ = "No database schema available." := by
  decide

/-- C8 amended: for every schema with zero tables the formatter returns
the fixed sentinel `"No database schema available."` — never the empty
string; for a non-empty schema the output contains, per table, the
declaration-style `CREATE TABLE` opening and every column's line (name,
type, `PRIMARY KEY` / `NOT NULL` qualifiers), and one
`- from_table.from_column → to_table.to_column` line per relationship
edge. -/
theorem format_schema_sentinel_and_blocks (database_type : String)
    (schema_info : SchemaInfo) :
    (schema_info.tables = [] →
        format_schema_for_llm database_type schema_info = "No database schema available."
      ∧ format_schema_for_llm database_type schema_info ≠ "")
  ∧ (∀ t, t ∈ schema_info.tables →
        strContains (format_schema_for_llm database_type schema_info)
          ("CREATE TABLE " ++ t.table_name ++ " (") = true
      ∧ ∀ col, col ∈ t.columns →
          strContains (format_schema_for_llm database_type schema_info)
            (column_line col) = true)
  ∧ (∀ rel, rel ∈ schema_info.relationships → schema_info.tables ≠ [] →
        strContains (format_schema_for_llm database_type schema_info)
          (rel_line rel) = true) := by
  obtain ⟨tables, relationships⟩ := schema_info
  refine ⟨?_, ?_, ?_⟩
  · intro h
    subst h
    have hs : format_schema_for_llm database_type ⟨[], relationships⟩
        = "No database schema available." := rfl
    refine ⟨hs, ?_⟩
    rw [hs]
    decide
  · intro t ht
    have hne : tables.isEmpty = false := by
      cases tables with
      | nil => exact absurd ht (List.not_mem_nil t)
      | cons a as => rfl
    constructor
    · rw [strContains_iff]
      simp only [format_schema_for_llm, hne, Bool.false_eq_true, if_false]
      apply infix_join_lines
      refine List.mem_append_left _ (List.mem_append_right _ ?_)
      exact List.mem_bind.mpr ⟨t, ht, by simp⟩
    · intro col hcol
      rw [strContains_iff]
      have h1 : (column_line col).data
          <:+: (join_lines ",\n" (t.columns.map column_line)).data :=
        infix_join_lines _ _ _ (List.mem_map_of_mem column_line hcol)
      refine h1.trans ?_
      simp only [format_schema_for_llm, hne, Bool.false_eq_true, if_false]
      apply infix_join_lines
      refine List.mem_append_left _ (List.mem_append_right _ ?_)
      exact List.mem_bind.mpr ⟨t, ht, by simp⟩
  · intro rel hrel hne'
    have hne : tables.isEmpty = false := by
      cases tables with
      | nil => exact absurd rfl hne'
      | cons a as => rfl
    have hrne : relationships.isEmpty = false := by
      cases relationships with
      | nil => exact absurd hrel (List.not_mem_nil rel)
      | cons a as => rfl
    rw [strContains_iff]
    simp only [format_schema_for_llm, hne, hrne, Bool.false_eq_true, if_false]
    apply infix_join_lines
    refine List.mem_append_right _ ?_
    exact List.mem_cons_of_mem _
      (List.mem_append_left _ (List.mem_map_of_mem rel_line hrel))

/-- A concrete schema description used by the C8 witness. -/
def demo_schema : SchemaInfo :=
  ⟨[⟨"departments", [⟨"id", "INTEGER", false, true⟩]⟩,
    ⟨"employees", [⟨"id", "INTEGER", false, true⟩,
                   ⟨"department_id", "INTEGER", true, false⟩]⟩],
   [⟨"employees", "department_id", "departments", "id"⟩]⟩

/-- Witness for C8 (amended): the zero-table sentinel, a CREATE TABLE
opening, a column line, and a relationship line on a concrete schema. -/
theorem format_schema_sentinel_and_blocks_witness :
    format_schema_for_llm "sqlite" ⟨[], []⟩ = "No database schema available."
  ∧ strContains (format_schema_for_llm "sqlite" demo_schema)
      ("CREATE TABLE " ++ "employees" ++ " (") = true
  ∧ strContains (format_schema_for_llm "sqlite" demo_schema)
      (column_line ⟨"department_id", "INTEGER", true, false⟩) = true
  ∧ strContains (format_schema_for_llm "sqlite" demo_schema)
      (rel_line ⟨"employees", "department_id", "departments", "id"⟩) = true :=
  ⟨((format_schema_sentinel_and_blocks "sqlite" ⟨[], []⟩).1 rfl).1,
   ((format_schema_sentinel_and_blocks "sqlite" demo_schema).2.1
      ⟨"employees", [⟨"id", "INTEGER", false, true⟩,
                     ⟨"department_id", "INTEGER", true, false⟩]⟩ (by decide)).1,
   ((format_schema_sentinel_and_blocks "sqlite" demo_schema).2.1
      ⟨"employees", [⟨"id", "INTEGER", false, true⟩,
                     ⟨"department_id", "INTEGER", true, false⟩]⟩ (by decide)).2
      ⟨"department_id", "INTEGER", true, false⟩ (by decide),
   (format_schema_sentinel_and_blocks "sqlite" demo_schema).2.2
      ⟨"employees", "department_id", "departments", "id"⟩ (by decide) (by decide)⟩

/-! ## Tool Registry (backend/main.py, `get_tools_from_all_mcp_servers`,
lines 194-223) -/

/-- A tool descriptor as listed by an MCP server. -/
structure MCPTool where
  name : String
  description : String
deriving DecidableEq

deriving instance DecidableEq for Except

/-- What one configured server yields: `Except.error` is the per-server
`except Exception` branch covering both connection and listing failures;
`Except.ok` is the listed tools. -/
abbrev ServerOutcome := Except String (List MCPTool)

/-- The routing table `TOOL_TO_SERVER_MAP`: tool name → server URL. -/
abbrev ToolServerMap := List (String × String)

/-- The inner registration loop: `TOOL_TO_SERVER_MAP[tool.name] =
server_url` for each listed tool, in order. -/
def register_tools (m : ToolServerMap) (server_url : String)
    (tools : List MCPTool) : ToolServerMap :=
  tools.foldl (fun m t => dictInsert m t.name server_url) m

/-- `get_tools_from_all_mcp_servers`: resets `TOOL_TO_SERVER_MAP` to `{}`
(so the previous snapshot `_old_map` is discarded wholesale), then walks
the configured servers, each `try`ed independently; reachable servers
register every tool into the map and append their declarations, failures
are logged and skipped.  Returns the new map and the aggregated
declaration list. -/
def get_tools_from_all_mcp_servers (_old_map : ToolServerMap)
    (servers : List (String × ServerOutcome)) : ToolServerMap × List MCPTool :=
  servers.foldl
    (fun acc srv =>
      match srv.2 with
      | Except.ok tools => (register_tools acc.1 srv.1 tools, acc.2 ++ tools)
      | Except.error _ => acc)
    ([], [])

/-- The tools of all reachable servers, in discovery order. -/
def reachableTools (servers : List (String × ServerOutcome)) : List MCPTool :=
  servers.bind (fun srv =>
    match srv.2 with
    | Except.ok tools => tools
    | Except.error _ => [])

/-- The names of all reachable servers' tools, in discovery order. -/
def reachableToolNames (servers : List (String × ServerOutcome)) : List String :=
  (reachableTools servers).map MCPTool.name

/-- The routing-map part of discovery, starting from map `m`. -/
def build_map (m : ToolServerMap) (servers : List (String × ServerOutcome)) :
    ToolServerMap :=
  servers.foldl
    (fun m srv =>
      match srv.2 with
      | Except.ok tools => register_tools m srv.1 tools
      | Except.error _ => m) m

/-- Last-writer route of name `n` through the server list, starting from
`acc`. -/
def routeFrom (acc : Option String) (servers : List (String × ServerOutcome))
    (n : String) : Option String :=
  servers.foldl
    (fun acc srv =>
      match srv.2 with
      | Except.ok tools => if n ∈ tools.map MCPTool.name then some srv.1 else acc
      | Except.error _ => acc) acc

theorem get_tools_fold_decomp (servers : List (String × ServerOutcome)) :
    ∀ acc : ToolServerMap × List MCPTool,
      (servers.foldl
        (fun acc srv =>
          match srv.2 with
          | Except.ok tools => (register_tools acc.1 srv.1 tools, acc.2 ++ tools)
          | Except.error _ => acc) acc)
      = (build_map acc.1 servers, acc.2 ++ reachableTools servers) := by
  induction servers with
  | nil =>
    intro acc
    simp [build_map, reachableTools]
  | cons s ss ih =>
    intro acc
    obtain ⟨url, outcome⟩ := s
    cases outcome with
    | ok tools =>
      simp only [List.foldl_cons, ih, build_map, reachableTools, List.cons_bind,
        List.append_assoc]
    | error e =>
      simp only [List.foldl_cons, ih, build_map, reachableTools, List.cons_bind,
        List.nil_append]

theorem get_tools_eq (old_map : ToolServerMap)
    (servers : List (String × ServerOutcome)) :
    get_tools_from_all_mcp_servers old_map servers
      = (build_map [] servers, reachableTools servers) := by
  unfold get_tools_from_all_mcp_servers
  rw [get_tools_fold_decomp]
  simp

theorem dictGet_register_tools (n server_url : String) :
    ∀ (tools : List MCPTool) (m : ToolServerMap),
      dictGet (register_tools m server_url tools) n
        = if n ∈ tools.map MCPTool.name then some server_url else dictGet m n := by
  intro tools
  induction tools with
  | nil => intro m; simp [register_tools]
  | cons t ts ih =>
    intro m
    have hstep : register_tools m server_url (t :: ts)
        = register_tools (dictInsert m t.name server_url) server_url ts := rfl
    rw [hstep, ih]
    by_cases hts : n ∈ ts.map MCPTool.name
    · simp [hts]
    · by_cases hn : n = t.name
      · subst hn
        simp [hts, dictGet_dictInsert_same]
      · rw [if_neg hts, dictGet_dictInsert_other _ _ _ (fun he => hn he.symm)]
        simp [hts, hn]

theorem routeFrom_cons_ok (acc : Option String) (url : String) (tools : List MCPTool)
    (ss : List (String × ServerOutcome)) (n : String) :
    routeFrom acc ((url, Except.ok tools) :: ss) n
      = routeFrom (if n ∈ tools.map MCPTool.name then some url else acc) ss n := rfl

theorem routeFrom_cons_error (acc : Option String) (url e : String)
    (ss : List (String × ServerOutcome)) (n : String) :
    routeFrom acc ((url, Except.error e) :: ss) n = routeFrom acc ss n := rfl

theorem routeFrom_append (acc : Option String) (l₁ l₂ : List (String × ServerOutcome))
    (n : String) :
    routeFrom acc (l₁ ++ l₂) n = routeFrom (routeFrom acc l₁ n) l₂ n := by
  unfold routeFrom
  rw [List.foldl_append]

theorem routeFrom_shift (n : String) :
    ∀ (servers : List (String × ServerOutcome)) (acc : Option String),
      routeFrom acc servers n
        = match routeFrom none servers n with
          | some w => some w
          | none => acc := by
  intro servers
  induction servers with
  | nil => intro acc; rfl
  | cons s ss ih =>
    intro acc
    obtain ⟨url, outcome⟩ := s
    cases outcome with
    | ok tools =>
      by_cases hn : n ∈ tools.map MCPTool.name
      · rw [routeFrom_cons_ok, routeFrom_cons_ok, if_pos hn, if_pos hn, ih (some url)]
        cases routeFrom none ss n <;> rfl
      · rw [routeFrom_cons_ok, routeFrom_cons_ok, if_neg hn, if_neg hn, ih acc]
    | error e =>
      rw [routeFrom_cons_error, routeFrom_cons_error, ih acc]

theorem dictGet_build_map (n : String) :
    ∀ (servers : List (String × ServerOutcome)) (m : ToolServerMap),
      dictGet (build_map m servers) n
        = match routeFrom none servers n with
          | some u => some u
          | none => dictGet m n := by
  intro servers
  induction servers with
  | nil => intro m; rfl
  | cons s ss ih =>
    intro m
    obtain ⟨url, outcome⟩ := s
    cases outcome with
    | ok tools =>
      have h1 : build_map m ((url, Except.ok tools) :: ss)
          = build_map (register_tools m url tools) ss := rfl
      rw [h1, ih (register_tools m url tools), routeFrom_cons_ok,
        dictGet_register_tools]
      by_cases hn : n ∈ tools.map MCPTool.name
      · rw [if_pos hn, if_pos hn, routeFrom_shift n ss (some url)]
        cases routeFrom none ss n <;> rfl
      · rw [if_neg hn, if_neg hn]
    | error e =>
      have h1 : build_map m ((url, Except.error e) :: ss) = build_map m ss := rfl
      rw [h1, ih m, routeFrom_cons_error]

theorem dictGet_build_map_nil (servers : List (String × ServerOutcome)) (n : String) :
    dictGet (build_map [] servers) n = routeFrom none servers n := by
  rw [dictGet_build_map]
  cases routeFrom none servers n <;> rfl

theorem reachableToolNames_cons_ok (url : String) (tools : List MCPTool)
    (ss : List (String × ServerOutcome)) :
    reachableToolNames ((url, Except.ok tools) :: ss)
      = tools.map MCPTool.name ++ reachableToolNames ss := by
  simp [reachableToolNames, reachableTools, List.cons_bind]

theorem reachableToolNames_cons_error (url e : String)
    (ss : List (String × ServerOutcome)) :
    reachableToolNames ((url, Except.error e) :: ss) = reachableToolNames ss := by
  simp [reachableToolNames, reachableTools, List.cons_bind]

theorem routeFrom_isSome_iff (n : String) :
    ∀ servers, (routeFrom none servers n).isSome = true
      ↔ n ∈ reachableToolNames servers := by
  intro servers
  induction servers with
  | nil => simp [routeFrom, reachableToolNames, reachableTools]
  | cons s ss ih =>
    obtain ⟨url, outcome⟩ := s
    cases outcome with
    | ok tools =>
      rw [routeFrom_cons_ok, reachableToolNames_cons_ok]
      by_cases hn : n ∈ tools.map MCPTool.name
      · rw [if_pos hn, routeFrom_shift n ss (some url)]
        constructor
        · intro _
          exact List.mem_append_left _ hn
        · intro _
          cases routeFrom none ss n <;> rfl
      · rw [if_neg hn]
        simp [List.mem_append, hn, ih]
    | error e =>
      rw [routeFrom_cons_error, reachableToolNames_cons_error]
      exact ih

theorem routeFrom_not_mem (n : String) :
    ∀ (servers : List (String × ServerOutcome)) (acc : Option String),
      n ∉ reachableToolNames servers → routeFrom acc servers n = acc := by
  intro servers
  induction servers with
  | nil => intro acc _; rfl
  | cons s ss ih =>
    intro acc h
    obtain ⟨url, outcome⟩ := s
    cases outcome with
    | ok tools =>
      rw [reachableToolNames_cons_ok] at h
      simp only [List.mem_append, not_or] at h
      rw [routeFrom_cons_ok, if_neg h.1]
      exact ih acc h.2
    | error e =>
      rw [reachableToolNames_cons_error] at h
      rw [routeFrom_cons_error]
      exact ih acc h

theorem keys_dictInsert {α : Type} (key : String) (v : α) :
    ∀ m : List (String × α),
      (dictInsert m key v).map Prod.fst
        = if key ∈ m.map Prod.fst then m.map Prod.fst
          else m.map Prod.fst ++ [key] := by
  intro m
  induction m with
  | nil => simp [dictInsert]
  | cons p rest ih =>
    obtain ⟨k, w⟩ := p
    by_cases hk : k = key
    · subst hk
      simp [dictInsert]
    · simp only [dictInsert, if_neg hk, List.map_cons, ih]
      by_cases hm : key ∈ rest.map Prod.fst
      · simp [hm, Ne.symm hk]
      · simp [hm, Ne.symm hk]

theorem nodup_keys_dictInsert {α : Type} (key : String) (v : α)
    (m : List (String × α)) (h : (m.map Prod.fst).Nodup) :
    ((dictInsert m key v).map Prod.fst).Nodup := by
  rw [keys_dictInsert]
  by_cases hm : key ∈ m.map Prod.fst
  · simpa [hm] using h
  · simp [hm, List.nodup_append, h, List.disjoint_singleton]

theorem nodup_keys_register_tools (server_url : String) :
    ∀ (tools : List MCPTool) (m : ToolServerMap),
      (m.map Prod.fst).Nodup →
      ((register_tools m server_url tools).map Prod.fst).Nodup := by
  intro tools
  induction tools with
  | nil => intro m h; exact h
  | cons t ts ih =>
    intro m h
    exact ih _ (nodup_keys_dictInsert t.name server_url m h)

theorem nodup_keys_build_map :
    ∀ (servers : List (String × ServerOutcome)) (m : ToolServerMap),
      (m.map Prod.fst).Nodup → ((build_map m servers).map Prod.fst).Nodup := by
  intro servers
  induction servers with
  | nil => intro m h; exact h
  | cons s ss ih =>
    intro m h
    obtain ⟨url, outcome⟩ := s
    cases outcome with
    | ok tools => exact ih _ (nodup_keys_register_tools url tools m h)
    | error e => exact ih _ h

theorem build_map_length (servers : List (String × ServerOutcome)) :
    (build_map [] servers).length = (reachableToolNames servers).dedup.length := by
  have hnd : ((build_map [] servers).map Prod.fst).Nodup :=
    nodup_keys_build_map servers [] (by simp)
  have hmem : ∀ n, n ∈ (build_map [] servers).map Prod.fst
      ↔ n ∈ reachableToolNames servers := by
    intro n
    rw [← routeFrom_isSome_iff, ← dictGet_build_map_nil]
    constructor
    · intro hm
      have hne : dictGet (build_map [] servers) n ≠ none := fun hc =>
        absurd hm ((dictGet_eq_none_iff n _).mp hc)
      exact Option.ne_none_iff_isSome.mp hne
    · intro hs
      by_contra hc
      rw [(dictGet_eq_none_iff n _).mpr hc] at hs
      exact absurd hs (by simp)
  have hnd2 : (reachableToolNames servers).dedup.Nodup := List.nodup_dedup _
  have hfin : ((build_map [] servers).map Prod.fst).toFinset
      = (reachableToolNames servers).dedup.toFinset :=
    List.toFinset.ext (fun x => by rw [hmem x, List.mem_dedup])
  have hperm := List.perm_of_nodup_nodup_toFinset_eq hnd hnd2 hfin
  calc (build_map [] servers).length
      = ((build_map [] servers).map Prod.fst).length := by simp
    _ = (reachableToolNames servers).dedup.length := hperm.length_eq

/-- C4: for any configuration of servers, some of which fail: discovery
(1) is independent of the previous routing snapshot — the map is reset
and fully rebuilt, never incrementally updated; (2) aggregates exactly
the reachable servers' tool declarations, so a failure on one server
never aborts discovery of the others; (3) registers every tool of every
reachable server in the routing table; (4) produces a routing table with
unique names whose size is the number of distinct reachable tool names —
the sum of the reachable servers' tool counts minus name collisions; and
(5) resolves a name collision to the last reachable server that
registered the name. -/
theorem discovery_isolated_failures_and_full_replace
    (old_map₁ old_map₂ : ToolServerMap)
    (servers : List (String × ServerOutcome)) :
    get_tools_from_all_mcp_servers old_map₁ servers
      = get_tools_from_all_mcp_servers old_map₂ servers
  ∧ (get_tools_from_all_mcp_servers old_map₁ servers).2 = reachableTools servers
  ∧ (∀ server_url tools, (server_url, Except.ok tools) ∈ servers →
      ∀ t, t ∈ tools →
        (dictGet (get_tools_from_all_mcp_servers old_map₁ servers).1 t.name).isSome
          = true)
  ∧ (((get_tools_from_all_mcp_servers old_map₁ servers).1.map Prod.fst).Nodup
      ∧ (get_tools_from_all_mcp_servers old_map₁ servers).1.length
          = (reachableToolNames servers).dedup.length)
  ∧ (∀ pre server_url tools post t,
      servers = pre ++ (server_url, Except.ok tools) :: post →
      t ∈ tools → t.name ∉ reachableToolNames post →
      dictGet (get_tools_from_all_mcp_servers old_map₁ servers).1 t.name
        = some server_url) := by
  have hkey : (get_tools_from_all_mcp_servers old_map₁ servers).1
      = build_map [] servers := by
    rw [get_tools_eq]
  refine ⟨rfl, ?_, ?_, ⟨?_, ?_⟩, ?_⟩
  · rw [get_tools_eq]
  · intro server_url tools hmem t ht
    rw [hkey, dictGet_build_map_nil, routeFrom_isSome_iff]
    exact List.mem_map_of_mem MCPTool.name
      (List.mem_bind.mpr ⟨(server_url, Except.ok tools), hmem, ht⟩)
  · rw [hkey]
    exact nodup_keys_build_map servers [] (by simp)
  · rw [hkey]
    exact build_map_length servers
  · intro pre server_url tools post t hsplit ht hpost
    have hn : t.name ∈ tools.map MCPTool.name := List.mem_map_of_mem _ ht
    rw [hkey, dictGet_build_map_nil, hsplit, routeFrom_append, routeFrom_cons_ok,
      if_pos hn]
    exact routeFrom_not_mem t.name post (some server_url) hpost

/-- Concrete tools and servers for the C4 witness: server 1 lists
`alpha` and `beta`, server 2 is unreachable, server 3 lists a colliding
`beta` and `gamma`. -/
def demo_servers : List (String × ServerOutcome) :=
  [("http://s1/sse", Except.ok [⟨"alpha", "tool a"⟩, ⟨"beta", "tool b"⟩]),
   ("http://s2/sse", Except.error "connection refused"),
   ("http://s3/sse", Except.ok [⟨"beta", "tool b v2"⟩, ⟨"gamma", "tool c"⟩])]

/-- Witness for C4: with one of three servers unreachable, discovery
ignores the stale snapshot, registers `alpha` from server 1, sizes the
routing table as 3 (4 reachable tools minus the `beta` collision), and
routes `beta` to the last server that registered it. -/
theorem discovery_isolated_failures_and_full_replace_witness :
    get_tools_from_all_mcp_servers [("stale", "http://gone/sse")] demo_servers
      = get_tools_from_all_mcp_servers [] demo_servers
  ∧ (dictGet (get_tools_from_all_mcp_servers [("stale", "http://gone/sse")]
      demo_servers).1 "alpha").isSome = true
  ∧ (get_tools_from_all_mcp_servers [("stale", "http://gone/sse")]
      demo_servers).1.length = (reachableToolNames demo_servers).dedup.length
  ∧ dictGet (get_tools_from_all_mcp_servers [("stale", "http://gone/sse")]
      demo_servers).1 "beta" = some "http://s3/sse" :=
  ⟨(discovery_isolated_failures_and_full_replace [("stale", "http://gone/sse")] []
      demo_servers).1,
   (discovery_isolated_failures_and_full_replace [("stale", "http://gone/sse")] []
      demo_servers).2.2.1 "http://s1/sse" [⟨"alpha", "tool a"⟩, ⟨"beta", "tool b"⟩]
      (by decide) ⟨"alpha", "tool a"⟩ (by decide),
   (discovery_isolated_failures_and_full_replace [("stale", "http://gone/sse")] []
      demo_servers).2.2.2.1.2,
   (discovery_isolated_failures_and_full_replace [("stale", "http://gone/sse")] []
      demo_servers).2.2.2.2
      [("http://s1/sse", Except.ok [⟨"alpha", "tool a"⟩, ⟨"beta", "tool b"⟩]),
       ("http://s2/sse", Except.error "connection refused")]
      "http://s3/sse" [⟨"beta", "tool b v2"⟩, ⟨"gamma", "tool c"⟩] []
      ⟨"beta", "tool b v2"⟩ (by decide) (by decide) (by decide)⟩
